import Mathlib

/-
Verification of the map-wedo place-directory client.

The repository is a browser client that fetches a list of places, annotates
each with a great-circle distance from the user's position, filters by
category, free-text search and tag, sorts by distance, and paginates the
result.  The development below is a shallow embedding of that pipeline:

* `src/unnamed/part_000` holds the main page: `parseLocation`,
  `getDistanceFromLatLonInKm`, the `processedPlaces` pipeline (distance
  annotation, category filter, search filter, tag filter, sort),
  `visiblePlaces` pagination, `availableTags` extraction, and the state
  updates wired to the category tabs, search input, tag chips and the
  "load more" button.
* `src/app/page.tsx` holds an earlier list page with `filteredPlaces` and
  `getTags` (which aliases and mutates `metadata.tags`, modelled here by
  explicit state passing).

JavaScript numbers are modelled as rationals plus an explicit NaN value
(`JSNum`).  JavaScript strings are Lean `String`s; the case-insensitive
operations work on the character lists (`String.toList`), with
`Char.toLower` standing in for `String.prototype.toLowerCase` (identical on
the ASCII data the claims use).  `Array.prototype.sort` is modelled as a
stable merge sort taking the left element whenever the comparator is `<= 0`,
the stable behaviour ECMAScript requires of a consistent comparator and the
algorithm JavaScriptCore actually uses; the comparator built from
`a.distance - b.distance` is not consistent (it answers 0 whenever either
distance is undefined or NaN), which is exactly what the sort claims are
about.
-/

/- Section: JavaScript values -/

/-- A JavaScript number as the client observes it: an ordinary finite value
(modelled as a rational) or NaN.  `typeof` of both is "number". -/
inductive JSNum where
  | num (q : ℚ)
  | nan
deriving DecidableEq

/-- Truthiness of a JS number: `0` and `NaN` are falsy, everything else is
truthy. -/
def JSNum.truthy : JSNum → Bool
  | .num q => decide (q ≠ 0)
  | .nan => false

/-- A coordinate pair as produced by the coordinate parser and by the
geolocation callback: an object with numeric fields `lat` and `lng`. -/
structure Coord where
  lat : JSNum
  lng : JSNum
deriving DecidableEq

/-- The shapes the `location` field of a fetched place can take: absent
(null or undefined), a string, or an already-structured (non-string) object
such as a GeoJSON coordinate pair. -/
inductive LocValue where
  | absent
  | str (s : String)
  | obj (lat lng : JSNum)
deriving DecidableEq

/-- The open `metadata` attribute bag, restricted to the one field the
pipeline reads: the optional `tags` array of strings. -/
structure Metadata where
  tags : Option (List String)
deriving DecidableEq

/-- One raw place record as fetched from the data store (the fields the
claims touch). -/
structure Place where
  id : String
  name : String
  category : String
  subcategory : Option String
  location : LocValue
  metadata : Metadata
deriving DecidableEq

/-- A place after the distance-annotation step: the raw record plus the
client-side `distance` field (undefined when either coordinate is missing). -/
structure APlace extends Place where
  distance : Option JSNum
deriving DecidableEq

/- Section: character-level string operations -/

/-- Whether the second list is a leading segment of the first, the model of
`String.prototype.startsWith`. -/
def startsWithL : List Char → List Char → Bool
  | _, [] => true
  | [], _ :: _ => false
  | a :: hay, b :: sub => a == b && startsWithL hay sub

/-- Whether `sub` occurs contiguously inside `hay`, the model of
`String.prototype.includes`. -/
def containsSub : List Char → List Char → Bool
  | [], sub => sub.isEmpty
  | a :: t, sub => startsWithL (a :: t) sub || containsSub t sub

/-- The characters of a string, lowercased; the model of
`String.prototype.toLowerCase` (ASCII, which covers every string the claims
mention). -/
def lowerChars (s : String) : List Char := s.toList.map Char.toLower

/-- Case-insensitive substring test: `hay.toLowerCase().includes(sub.toLowerCase())`. -/
def includesCI (hay sub : String) : Bool := containsSub (lowerChars hay) (lowerChars sub)

/- Section: parseFloat -/

/-- Value of a list of decimal digit characters. -/
def digitsToNat (l : List Char) : ℕ :=
  l.foldl (fun acc c => 10 * acc + (c.toNat - '0'.toNat)) 0

/-- The significand part of `parseFloat` after an optional sign: longest
leading digit run, an optional point and a further digit run.  NaN when no
digit is found at all.  (The exponent and Infinity forms of the full
`parseFloat` grammar never occur in this client's data or in the claims.) -/
def parseFloatSigned (sign : ℚ) (l : List Char) : JSNum :=
  let ip := l.takeWhile Char.isDigit
  let r := l.dropWhile Char.isDigit
  let fp := match r with
    | '.' :: r2 => r2.takeWhile Char.isDigit
    | _ => []
  if ip.isEmpty && fp.isEmpty then JSNum.nan
  else JSNum.num (sign * ((digitsToNat ip : ℚ) + (digitsToNat fp : ℚ) / (10 : ℚ) ^ fp.length))

/-- Model of `parseFloat` on a list of characters: optional sign, then a
decimal significand; NaN when no numeral can be read. -/
def parseFloatChars : List Char → JSNum
  | '-' :: r => parseFloatSigned (-1) r
  | '+' :: r => parseFloatSigned 1 r
  | l => parseFloatSigned 1 l

/-- Model of the JavaScript `parseFloat` builtin on a string. -/
def parseFloat (s : String) : JSNum := parseFloatChars s.toList

/- Section: the location regex and parseLocation.

The source matches `loc.match(/\(([^ ]+) ([^ ]+)\)/)`: an opening
parenthesis, a greedy nonempty run of non-space characters, one space, a
second greedy nonempty run of non-space characters, then a closing
parenthesis, searched left to right with backtracking.  `tryMatchAt` plays
the attempt at one position just after a '(' and `findPointMatch` the
left-to-right scan.  Group 1 is forced to be the maximal non-space run
(shorter prefixes are followed by a non-space character, not the required
space); group 2 is the longest prefix of the maximal non-space run whose
next character is ')', i.e. everything up to the last ')' of that run. -/

/-- Index of the last occurrence of a character in a list, if any. -/
def lastIdxOf (c : Char) : List Char → Option ℕ
  | [] => none
  | a :: l =>
    match lastIdxOf c l with
    | some i => some (i + 1)
    | none => if a = c then some 0 else none

/-- One attempt of the regex `\(([^ ]+) ([^ ]+)\)` at a fixed position, on
the text just after the '(': the two captured groups, or failure. -/
def tryMatchAt (rest : List Char) : Option (List Char × List Char) :=
  let run1 := rest.takeWhile (fun c => c != ' ')
  let after1 := rest.dropWhile (fun c => c != ' ')
  if run1.isEmpty then none
  else
    match after1 with
    | ' ' :: rest2 =>
      let run2 := rest2.takeWhile (fun c => c != ' ')
      match lastIdxOf ')' run2 with
      | some k => if 1 ≤ k then some (run1, run2.take k) else none
      | none => none
    | _ => none

/-- The left-to-right scan of the regex over the whole string: the first
position whose attempt succeeds wins. -/
def findPointMatch : List Char → Option (List Char × List Char)
  | [] => none
  | c :: rest =>
    if c = '(' then
      match tryMatchAt rest with
      | some r => some r
      | none => findPointMatch rest
    else findPointMatch rest

/-- The characters of the literal "POINT". -/
def pointLit : List Char := ['P', 'O', 'I', 'N', 'T']

/-- Model of `parseLocation` in src/unnamed/part_000: null for a falsy or
non-string value, else for a string starting with "POINT" the regex match
with `lng` from group 1 and `lat` from group 2 run through `parseFloat`;
null when the string does not start with "POINT" or the regex fails. -/
def parseLocation : LocValue → Option Coord
  | .absent => none
  | .obj _ _ => none
  | .str s =>
    if s.toList.isEmpty then none
    else if startsWithL s.toList pointLit then
      match findPointMatch s.toList with
      | some (t1, t2) => some ⟨parseFloatChars t2, parseFloatChars t1⟩
      | none => none
    else none

/- Section: the pipeline (processedPlaces) -/

/-- Distance annotation (step 5.1 of `processedPlaces`): parse the place's
location and, when both the user coordinate and the parsed coordinate
exist, attach `distFn user place` as the distance; otherwise leave the
distance undefined.  The numeric haversine computation itself runs on
floating-point trigonometry, so the pipeline is stated for an arbitrary
distance function; the real-valued haversine model is
`getDistanceFromLatLonInKm` below. -/
def annotatePlace (distFn : Coord → Coord → JSNum) (userLocation : Option Coord)
    (p : Place) : APlace :=
  match userLocation, parseLocation p.location with
  | some u, some l => ⟨p, some (distFn u l)⟩
  | _, _ => ⟨p, none⟩

/-- Category filter: applied whenever the active category is not the "all"
sentinel. -/
def categoryFilterStep (activeCategory : String) (l : List APlace) : List APlace :=
  if activeCategory ≠ "all" then l.filter (fun p => p.category == activeCategory) else l

/-- The search predicate: lowercased name contains the lowercased term, or
some metadata tag does (an absent tags array matches nothing). -/
def searchMatches (searchTerm : String) (p : APlace) : Bool :=
  includesCI p.name searchTerm
    || (p.metadata.tags.getD []).any (fun t => includesCI t searchTerm)

/-- Search filter: `if (searchTerm)` — applied whenever the term is a
truthy, i.e. nonempty, string. -/
def searchFilterStep (searchTerm : String) (l : List APlace) : List APlace :=
  if searchTerm ≠ "" then l.filter (searchMatches searchTerm) else l

/-- Tag sub-filter: exact membership of the active tag in the tags array,
applied whenever the active tag is nonempty. -/
def tagFilterStep (activeTag : String) (l : List APlace) : List APlace :=
  if activeTag ≠ "" then l.filter (fun p => (p.metadata.tags.getD []).contains activeTag) else l

/-- The sort comparator `(a, b) => a.distance - b.distance` when both
distances have `typeof === 'number'`, else 0.  A NaN distance passes the
typeof test but makes the subtraction NaN, which the ECMAScript SortCompare
step coerces to +0, so only two finite numeric distances ever separate. -/
def jsSortCompare (a b : Option JSNum) : Int :=
  match a, b with
  | some (.num x), some (.num y) => if x < y then -1 else if y < x then 1 else 0
  | _, _ => 0

/-- The boolean "keep the left element first" reading of the comparator. -/
def jsSortLe (a b : APlace) : Bool := decide (jsSortCompare a.distance b.distance ≤ 0)

/-- Stable merge: take the left element whenever the comparator does not
put it strictly after the right one. -/
def jsMerge {α : Type} (le : α → α → Bool) : List α → List α → List α
  | [], r => r
  | l, [] => l
  | a :: l, b :: r =>
    if le a b then a :: jsMerge le l (b :: r) else b :: jsMerge le (a :: l) r
termination_by l r => l.length + r.length

/-- Stable merge sort, the model of `Array.prototype.sort`. -/
def jsStableSort {α : Type} (le : α → α → Bool) : List α → List α
  | [] => []
  | [a] => [a]
  | a :: b :: rest =>
    jsMerge le (jsStableSort le ((a :: b :: rest).take ((a :: b :: rest).length / 2)))
      (jsStableSort le ((a :: b :: rest).drop ((a :: b :: rest).length / 2)))
termination_by l => l.length
decreasing_by
  · simp [List.length_take]; omega
  · simp; omega

/-- The sort step of the pipeline. -/
def sortStep (l : List APlace) : List APlace := jsStableSort jsSortLe l

/-- The whole `processedPlaces` memo: annotate, filter by category, search
and tag, then sort. -/
def processedPlaces (distFn : Coord → Coord → JSNum) (userLocation : Option Coord)
    (places : List Place) (activeCategory searchTerm activeTag : String) : List APlace :=
  sortStep (tagFilterStep activeTag (searchFilterStep searchTerm
    (categoryFilterStep activeCategory (places.map (annotatePlace distFn userLocation)))))

/- Section: pagination, tag vocabulary, page state -/

/-- The page size constant. -/
def PAGE_SIZE : ℕ := 30

/-- The visible slice: `processedPlaces.slice(0, page * PAGE_SIZE)`. -/
def visiblePlaces (processed : List APlace) (page : ℕ) : List APlace :=
  processed.take (page * PAGE_SIZE)

/-- The count shown on the "load more" button:
`processedPlaces.length - visiblePlaces.length`. -/
def remainingCount (processed : List APlace) (page : ℕ) : ℕ :=
  processed.length - (visiblePlaces processed page).length

/-- One `Set.add`: JavaScript sets keep first-insertion order and ignore a
repeated add. -/
def addTag (acc : List String) (t : String) : List String :=
  if t ∈ acc then acc else acc ++ [t]

/-- The `availableTags` memo: collect the tags of the places of the active
category into an insertion-ordered set, then keep the first 15.  Its inputs
are exactly the raw place list and the active category. -/
def availableTags (places : List Place) (activeCategory : String) : List String :=
  let categoryPlaces := places.filter (fun p => p.category == activeCategory)
  let allTags := categoryPlaces.foldl (fun acc p => (p.metadata.tags.getD []).foldl addTag acc) []
  allTags.take 15

/-- The filter/search/tag/page state of the main page. -/
structure UIState where
  activeCategory : String
  searchTerm : String
  activeTag : String
  page : ℕ
deriving DecidableEq

/-- The initial state: category "food", no search, no tag, page 1. -/
def initialState : UIState := ⟨"food", "", "", 1⟩

/-- A category tab click: `setActiveCategory(cat.id); setActiveTag(''); setPage(1)`. -/
def selectCategory (c : String) (s : UIState) : UIState := ⟨c, s.searchTerm, "", 1⟩

/-- A search input change: `setSearchTerm(e.target.value)` and nothing else. -/
def changeSearchTerm (t : String) (s : UIState) : UIState :=
  ⟨s.activeCategory, t, s.activeTag, s.page⟩

/-- A tag chip click: `setActiveTag(tag)` and nothing else. -/
def selectTag (t : String) (s : UIState) : UIState :=
  ⟨s.activeCategory, s.searchTerm, t, s.page⟩

/-- The "load more" button: `setPage(p => p + 1)`. -/
def loadMore (s : UIState) : UIState :=
  ⟨s.activeCategory, s.searchTerm, s.activeTag, s.page + 1⟩

/-- `availableTags` as the page sees it, a function of the raw places and
the state (it reads only the active category). -/
def availableTagsUI (places : List Place) (s : UIState) : List String :=
  availableTags places s.activeCategory

/-- The distance badge guard of the place card:
`place.distance && (<span>…</span>)` shows the badge exactly when the
distance value is truthy. -/
def showsDistanceBadge (d : Option JSNum) : Bool :=
  match d with
  | some n => n.truthy
  | none => false

/- Section: getTags of src/app/page.tsx, with its mutation made explicit.

In the source, `const defaultTags = place.metadata?.tags || []` aliases the
fetched record's tags array whenever one is present (even an empty one:
arrays are truthy), and `defaultTags.unshift(place.subcategory)` then
mutates that array in place.  The model returns the three displayed tags
together with the place record as it stands after the call. -/
def getTags (place : Place) : List String × Place :=
  match place.metadata.tags, place.subcategory with
  | some tags, some sub =>
    ((sub :: tags).take 3,
      ⟨place.id, place.name, place.category, place.subcategory, place.location,
        ⟨some (sub :: tags)⟩⟩)
  | some tags, none => (tags.take 3, place)
  | none, some sub => ([sub].take 3, place)
  | none, none => ([], place)

/- Section: the haversine distance, over the reals.

`Math.atan2 y x` is the argument of the complex number `x + y i`. -/

/-- Degree-to-radian conversion. -/
noncomputable def deg2rad (deg : ℝ) : ℝ := deg * (Real.pi / 180)

/-- The two-argument arctangent. -/
noncomputable def atan2 (y x : ℝ) : ℝ := Complex.arg ⟨x, y⟩

/-- The haversine intermediate value `a` of `getDistanceFromLatLonInKm`. -/
noncomputable def havA (lat1 lon1 lat2 lon2 : ℝ) : ℝ :=
  Real.sin (deg2rad (lat2 - lat1) / 2) * Real.sin (deg2rad (lat2 - lat1) / 2) +
    Real.cos (deg2rad lat1) * Real.cos (deg2rad lat2) *
      Real.sin (deg2rad (lon2 - lon1) / 2) * Real.sin (deg2rad (lon2 - lon1) / 2)

/-- The haversine distance with Earth radius 6371 km, the real-valued model
of `getDistanceFromLatLonInKm`. -/
noncomputable def getDistanceFromLatLonInKm (lat1 lon1 lat2 lon2 : ℝ) : ℝ :=
  6371 * (2 * atan2 (Real.sqrt (havA lat1 lon1 lat2 lon2))
    (Real.sqrt (1 - havA lat1 lon1 lat2 lon2)))

/- Section: derived notions used by the claims -/

/-- Whether a place carries a finite numeric distance (the only distances
the sort comparator ever separates). -/
def isRealDist (p : APlace) : Bool :=
  match p.distance with
  | some (JSNum.num _) => true
  | _ => false

/-- The ordering the sorted output is claimed to satisfy between adjacent
elements: whenever both carry finite numeric distances, they are
ascending. -/
def distLeProp (a b : APlace) : Prop :=
  ∀ x y : ℚ, a.distance = some (JSNum.num x) → b.distance = some (JSNum.num y) → x ≤ y

/-- The claim's reading of the sort step's stability: every place without a
finite numeric distance keeps its relative position, against every other
place, across the sort. -/
def sortKeepsUndefPositions (l : List APlace) : Prop :=
  ∀ a ∈ l, ∀ b ∈ l, isRealDist a = false →
    ((l.indexOf a < l.indexOf b) ↔ ((sortStep l).indexOf a < (sortStep l).indexOf b))

/-- Deduplication keeping first occurrences, written the way the spec words
it ("deduplicated, order-of-first-appearance"): keep the head, erase its
later duplicates, recurse. -/
def firstSeenSpec : List String → List String
  | [] => []
  | t :: rest => t :: firstSeenSpec (rest.filter (fun u => u != t))
termination_by l => l.length
decreasing_by
  simp
  exact Nat.lt_succ_of_le (List.length_filter_le _ _)

/-- The tag vocabulary as the spec describes it: the deduplicated,
first-seen-ordered tags of the places of the given category, truncated to
15. -/
def specTagVocab (places : List Place) (cat : String) : List String :=
  (firstSeenSpec ((places.filter (fun p => p.category == cat)).flatMap
    (fun p => p.metadata.tags.getD []))).take 15

/- Section: concrete records used by the claim theorems -/

/-- An annotated place with a given name and distance, on which the sort claims are tested. -/
def cexPlace (n : String) (d : Option JSNum) : APlace :=
  ⟨⟨n, n, "food", none, LocValue.absent, ⟨none⟩⟩, d⟩

/-- A place 5 km away. -/
def cexFar : APlace := cexPlace "far" (some (JSNum.num 5))

/-- A place with no distance. -/
def cexNoDist : APlace := cexPlace "nodist" none

/-- A place 1 km away. -/
def cexNear : APlace := cexPlace "near" (some (JSNum.num 1))

/-- A place 2 km away. -/
def cexMid : APlace := cexPlace "mid" (some (JSNum.num 2))

/-- The input on which the sort moves defined-distance places past an undefined one. -/
def cexList : List APlace := [cexFar, cexNoDist, cexNear, cexMid]

/-- A fetched place with a subcategory and a tags array, the situation in which getTags mutates its source. -/
def petCafePlace : Place :=
  ⟨"p1", "Dog Cafe", "pet", some "cafe", LocValue.absent, ⟨some ["a", "b", "c"]⟩⟩

/-- A throwaway annotated place for the pagination counts. -/
def demoAPlace : APlace := ⟨⟨"d", "d", "food", none, LocValue.absent, ⟨none⟩⟩, none⟩

/-- A filtered result of 75 places. -/
def demo75 : List APlace := List.replicate 75 demoAPlace

/-- A place matching the term "temple" by name only. -/
def templeCafe : APlace :=
  ⟨⟨"s1", "Temple View Cafe", "food", none, LocValue.absent, ⟨some ["coffee"]⟩⟩, none⟩

/-- A place matching the term "temple" by tag only. -/
def taggedX : APlace :=
  ⟨⟨"s2", "X", "food", none, LocValue.absent, ⟨some ["temple", "view"]⟩⟩, none⟩

/-- A place matching the term "temple" not at all. -/
def unrelatedPlace : APlace :=
  ⟨⟨"s3", "Beach Bar", "food", none, LocValue.absent, ⟨some ["sand"]⟩⟩, none⟩

/-- A place whose name and tags contain no space, filtered out by a whitespace-only term. -/
def whitespacePlace : APlace :=
  ⟨⟨"w1", "ab", "food", none, LocValue.absent, ⟨none⟩⟩, none⟩

/-- A food-category place with the given tags. -/
def demoFood (n : String) (tags : List String) : Place :=
  ⟨n, n, "food", none, LocValue.absent, ⟨some tags⟩⟩

/-- Places whose food category carries 18 distinct tags in a known first-seen order, plus a dive place whose tags must not leak in. -/
def demoPlaces : List Place :=
  [demoFood "f1" ["a", "b", "a", "c", "d", "e", "f", "g", "h"],
   ⟨"d1", "d1", "dive", none, LocValue.absent, ⟨some ["zz", "a"]⟩⟩,
   demoFood "f2" ["i", "j", "k", "b", "l", "m", "n", "o", "p", "q", "r"]]

/- Section: lemmas about the stable merge sort model -/

theorem jsMerge_nil_left {α : Type} (le : α → α → Bool) (r : List α) :
    jsMerge le [] r = r := by
  cases r <;> simp [jsMerge]

theorem jsMerge_nil_right {α : Type} (le : α → α → Bool) (l : List α) :
    jsMerge le l [] = l := by
  cases l <;> simp [jsMerge]

theorem jsMerge_cons_cons {α : Type} (le : α → α → Bool) (a b : α) (l r : List α) :
    jsMerge le (a :: l) (b :: r) =
      if le a b then a :: jsMerge le l (b :: r) else b :: jsMerge le (a :: l) r := by
  simp [jsMerge]

theorem jsMerge_head?_mem {α : Type} (le : α → α → Bool) (l r : List α) (z : α)
    (h : (jsMerge le l r).head? = some z) : l.head? = some z ∨ r.head? = some z := by
  match l, r with
  | [], r => right; simpa [jsMerge_nil_left] using h
  | a :: l, [] => left; simpa [jsMerge_nil_right] using h
  | a :: l, b :: r =>
    rw [jsMerge_cons_cons] at h
    by_cases hab : le a b
    · left; simp [hab] at h; simp [h]
    · right; simp [hab] at h; simp [h]

theorem chain'_jsMerge {α : Type} {R : α → α → Prop} {le : α → α → Bool}
    (h1 : ∀ a b, le a b = true → R a b) (h2 : ∀ a b, le b a = false → R a b) :
    ∀ l r : List α, List.Chain' R l → List.Chain' R r → List.Chain' R (jsMerge le l r)
  | [], r, _, hr => by simpa [jsMerge_nil_left] using hr
  | a :: l, [], hl, _ => by simpa [jsMerge_nil_right] using hl
  | a :: l, b :: r, hl, hr => by
    rw [jsMerge_cons_cons]
    by_cases hab : le a b
    · rw [if_pos hab, List.chain'_cons']
      constructor
      · intro y hy
        rcases jsMerge_head?_mem le l (b :: r) y hy with h | h
        · exact (List.chain'_cons'.mp hl).1 y h
        · simp at h; subst h; exact h1 a b hab
      · exact chain'_jsMerge h1 h2 l (b :: r) (List.chain'_cons'.mp hl).2 hr
    · rw [if_neg hab, List.chain'_cons']
      have hab' : le a b = false := by simpa using hab
      constructor
      · intro y hy
        rcases jsMerge_head?_mem le (a :: l) r y hy with h | h
        · simp at h; subst h; exact h2 b a hab'
        · exact (List.chain'_cons'.mp hr).1 y h
      · exact chain'_jsMerge h1 h2 (a :: l) r hl (List.chain'_cons'.mp hr).2
termination_by l r => l.length + r.length

theorem chain'_jsStableSort {α : Type} {R : α → α → Prop} {le : α → α → Bool}
    (h1 : ∀ a b, le a b = true → R a b) (h2 : ∀ a b, le b a = false → R a b) :
    ∀ l : List α, List.Chain' R (jsStableSort le l)
  | [] => by simp [jsStableSort]
  | [a] => by simp [jsStableSort]
  | a :: b :: rest => by
    rw [jsStableSort]
    have hlt : ((a :: b :: rest).take ((a :: b :: rest).length / 2)).length < (a :: b :: rest).length := by
      simp [List.length_take]; omega
    have hlt2 : ((a :: b :: rest).drop ((a :: b :: rest).length / 2)).length < (a :: b :: rest).length := by
      simp; omega
    exact chain'_jsMerge h1 h2 _ _
      (chain'_jsStableSort h1 h2 _) (chain'_jsStableSort h1 h2 _)
termination_by l => l.length
decreasing_by
  · simpa [List.length_take] using hlt
  · simpa using hlt2

theorem filter_jsMerge {α : Type} {P : α → Bool} {le : α → α → Bool}
    (h : ∀ a b, P b = true → le a b = true) :
    ∀ l r : List α, (jsMerge le l r).filter P = l.filter P ++ r.filter P
  | [], r => by simp [jsMerge_nil_left]
  | a :: l, [] => by simp [jsMerge_nil_right]
  | a :: l, b :: r => by
    rw [jsMerge_cons_cons]
    by_cases hab : le a b
    · rw [if_pos hab]
      by_cases hPa : P a = true
      · rw [List.filter_cons_of_pos hPa, List.filter_cons_of_pos hPa,
          filter_jsMerge h l (b :: r), List.cons_append]
      · rw [List.filter_cons_of_neg hPa, List.filter_cons_of_neg hPa,
          filter_jsMerge h l (b :: r)]
    · have hab' : le a b = false := by simpa using hab
      have hPb : ¬ P b = true := by
        intro hPb
        exact absurd (h a b hPb) (by simp [hab'])
      rw [if_neg hab, List.filter_cons_of_neg hPb, List.filter_cons_of_neg hPb,
        filter_jsMerge h (a :: l) r]
termination_by l r => l.length + r.length

theorem filter_jsStableSort {α : Type} {P : α → Bool} {le : α → α → Bool}
    (h : ∀ a b, P b = true → le a b = true) :
    ∀ l : List α, (jsStableSort le l).filter P = l.filter P
  | [] => by simp [jsStableSort]
  | [a] => by simp [jsStableSort]
  | a :: b :: rest => by
    rw [jsStableSort]
    have hlt : ((a :: b :: rest).take ((a :: b :: rest).length / 2)).length < (a :: b :: rest).length := by
      simp [List.length_take]; omega
    have hlt2 : ((a :: b :: rest).drop ((a :: b :: rest).length / 2)).length < (a :: b :: rest).length := by
      simp; omega
    rw [filter_jsMerge h, filter_jsStableSort h, filter_jsStableSort h, ← List.filter_append,
      List.take_append_drop]
termination_by l => l.length
decreasing_by
  · simpa [List.length_take] using hlt
  · simpa using hlt2

theorem jsMerge_all_left {α : Type} {le : α → α → Bool} :
    ∀ l r : List α, (∀ a ∈ l, ∀ b ∈ r, le a b = true) → jsMerge le l r = l ++ r
  | [], r, _ => by simp [jsMerge_nil_left]
  | a :: l, [], _ => by simp [jsMerge_nil_right]
  | a :: l, b :: r, h => by
    have hab : le a b = true := h a (by simp) b (by simp)
    rw [jsMerge_cons_cons, if_pos hab,
      jsMerge_all_left l (b :: r) (fun x hx y hy => h x (by simp [hx]) y hy)]
    simp
termination_by l r => l.length + r.length

theorem jsStableSort_all_le {α : Type} {le : α → α → Bool} :
    ∀ l : List α, (∀ a ∈ l, ∀ b ∈ l, le a b = true) → jsStableSort le l = l
  | [], _ => by simp [jsStableSort]
  | [a], _ => by simp [jsStableSort]
  | a :: b :: rest, h => by
    rw [jsStableSort]
    have hlt : ((a :: b :: rest).take ((a :: b :: rest).length / 2)).length < (a :: b :: rest).length := by
      simp [List.length_take]; omega
    have hlt2 : ((a :: b :: rest).drop ((a :: b :: rest).length / 2)).length < (a :: b :: rest).length := by
      simp; omega
    rw [jsStableSort_all_le _ (fun x hx y hy =>
        h x (List.mem_of_mem_take hx) y (List.mem_of_mem_take hy)),
      jsStableSort_all_le _ (fun x hx y hy =>
        h x (List.mem_of_mem_drop hx) y (List.mem_of_mem_drop hy)),
      jsMerge_all_left _ _ (fun x hx y hy =>
        h x (List.mem_of_mem_take hx) y (List.mem_of_mem_drop hy)),
      List.take_append_drop]
termination_by l => l.length
decreasing_by
  · simpa [List.length_take] using hlt
  · simpa using hlt2

theorem jsSortLe_true_distLe (a b : APlace) (h : jsSortLe a b = true) : distLeProp a b := by
  intro x y hx hy
  simp only [jsSortLe, jsSortCompare, hx, hy, decide_eq_true_eq] at h
  by_cases h1 : x < y
  · exact le_of_lt h1
  · by_cases h2 : y < x
    · rw [if_neg h1, if_pos h2] at h; norm_num at h
    · exact le_of_not_lt h2

theorem jsSortLe_false_distLe (a b : APlace) (h : jsSortLe b a = false) : distLeProp a b := by
  intro x y hx hy
  simp only [jsSortLe, jsSortCompare, hx, hy, decide_eq_false_iff_not] at h
  by_cases h1 : y < x
  · exact absurd (by rw [if_pos h1]; norm_num : (if y < x then (-1 : Int) else if x < y then 1 else 0) ≤ 0) h
  · exact le_of_not_lt h1

theorem jsSortLe_of_not_real_right (a b : APlace) (h : isRealDist b = false) :
    jsSortLe a b = true := by
  simp only [jsSortLe, jsSortCompare, decide_eq_true_eq]
  rcases hb : b.distance with _ | n
  · rcases a.distance with _ | m
    · norm_num
    · rcases m <;> norm_num
  · rcases n with q | _
    · simp [isRealDist, hb] at h
    · rcases a.distance with _ | m
      · norm_num
      · rcases m <;> norm_num

theorem annotatePlace_none (distFn : Coord → Coord → JSNum) (p : Place) :
    annotatePlace distFn none p = ⟨p, none⟩ := by
  cases h : parseLocation p.location <;> simp [annotatePlace, h]

theorem mem_categoryFilterStep (c : String) (l : List APlace) (a : APlace)
    (h : a ∈ categoryFilterStep c l) : a ∈ l := by
  unfold categoryFilterStep at h
  split at h
  · exact List.mem_of_mem_filter h
  · exact h

theorem mem_searchFilterStep (t : String) (l : List APlace) (a : APlace)
    (h : a ∈ searchFilterStep t l) : a ∈ l := by
  unfold searchFilterStep at h
  split at h
  · exact List.mem_of_mem_filter h
  · exact h

theorem mem_tagFilterStep (t : String) (l : List APlace) (a : APlace)
    (h : a ∈ tagFilterStep t l) : a ∈ l := by
  unfold tagFilterStep at h
  split at h
  · exact List.mem_of_mem_filter h
  · exact h

theorem processedPlaces_no_user_location (distFn : Coord → Coord → JSNum)
    (places : List Place) (c term tag : String) :
    processedPlaces distFn none places c term tag =
      tagFilterStep tag (searchFilterStep term
        (categoryFilterStep c (places.map (annotatePlace distFn none)))) := by
  unfold processedPlaces sortStep
  apply jsStableSort_all_le
  intro a ha b hb
  have hna : a.distance = none := by
    have := mem_categoryFilterStep c _ a
      (mem_searchFilterStep term _ a (mem_tagFilterStep tag _ a ha))
    rcases List.mem_map.mp this with ⟨p, _, hp⟩
    rw [← hp, annotatePlace_none]
  simp [jsSortLe, jsSortCompare, hna]

theorem sortStep_cexList : sortStep cexList = [cexNear, cexMid, cexFar, cexNoDist] := by
  simp [sortStep, cexList, jsStableSort, jsMerge, jsSortLe, jsSortCompare,
    cexFar, cexNoDist, cexNear, cexMid, cexPlace]
  norm_num

/-- Claim C1, counterexample: on the concrete input [far 5 km, no distance, near 1 km, mid 2 km]
the sort step does not let the place without a distance retain its pre-sort relative
position: the 1 km and 2 km places move from after it to before it. -/
theorem sort_moves_places_past_undefined : ¬ sortKeepsUndefPositions cexList := by
  intro h
  have hm := h cexNoDist (by decide) cexNear (by decide) (by decide)
  rw [sortStep_cexList] at hm
  revert hm
  decide

/-- Claim C1, amended: in the sorted output, adjacent places that both carry a finite
numeric distance are in ascending distance order; every comparison involving a place
without one answers 0, so such places keep their relative order among themselves
(though places with a distance can move past them); and with no user coordinate the
sort step of the pipeline is a no-op, so the pure pipeline reproduces the filtered
input order. -/
theorem sort_adjacent_ascending_stable_among_undef :
    (∀ l : List APlace, List.Chain' distLeProp (sortStep l))
  ∧ (∀ l : List APlace,
      (sortStep l).filter (fun p => !(isRealDist p)) = l.filter (fun p => !(isRealDist p)))
  ∧ (∀ (distFn : Coord → Coord → JSNum) (places : List Place) (c term tag : String),
      processedPlaces distFn none places c term tag =
        tagFilterStep tag (searchFilterStep term
          (categoryFilterStep c (places.map (annotatePlace distFn none))))) := by
  refine ⟨?_, ?_, processedPlaces_no_user_location⟩
  · intro l
    exact chain'_jsStableSort jsSortLe_true_distLe jsSortLe_false_distLe l
  · intro l
    apply filter_jsStableSort
    intro a b hb
    apply jsSortLe_of_not_real_right
    simpa using hb

/-- Claim C2: the claim (and the spec's immutability invariant) is violated by getTags
in src/app/page.tsx, which aliases metadata.tags and unshift-mutates it: with a
subcategory present the source record's tags array gains the subcategory on every
call, growing again on each render. -/
theorem getTags_mutates_source :
    (getTags petCafePlace).2.metadata.tags = some ["cafe", "a", "b", "c"]
  ∧ (getTags petCafePlace).2 ≠ petCafePlace
  ∧ (getTags (getTags petCafePlace).2).2.metadata.tags = some ["cafe", "cafe", "a", "b", "c"] := by
  decide

/-- Claim C3, counterexample: from page 2, changing the search term or the active tag
leaves the page at 2; the claim says either change resets it to 1. -/
theorem search_and_tag_changes_do_not_reset_page :
    (changeSearchTerm "x" (loadMore initialState)).page = 2
  ∧ (selectTag "t" (loadMore initialState)).page = 2 := by
  decide

/-- Claim C3, amended: the page starts at 1 and "load more" increments it by one;
changing the active category resets the page to 1 and clears the active tag; but
changing the search term or the active tag leaves the current page unchanged. -/
theorem page_state_transitions :
    initialState.page = 1
  ∧ (∀ (s : UIState) (c : String),
      (selectCategory c s).page = 1 ∧ (selectCategory c s).activeTag = ""
        ∧ (selectCategory c s).activeCategory = c)
  ∧ (∀ (s : UIState) (t : String), (changeSearchTerm t s).page = s.page)
  ∧ (∀ (s : UIState) (t : String), (selectTag t s).page = s.page)
  ∧ (∀ s : UIState, (loadMore s).page = s.page + 1) := by
  exact ⟨rfl, fun s c => ⟨rfl, rfl, rfl⟩, fun s t => rfl, fun s t => rfl, fun s => rfl⟩

/-- Claim C10: the distance badge guard tests truthiness, so the badge shows exactly
for a finite nonzero numeric distance; a place at distance exactly 0 (and a NaN or
undefined distance) shows no badge. -/
theorem distance_badge_truthiness :
    (∀ d : Option JSNum, showsDistanceBadge d = true ↔ ∃ q : ℚ, d = some (JSNum.num q) ∧ q ≠ 0)
  ∧ showsDistanceBadge (some (JSNum.num 0)) = false
  ∧ showsDistanceBadge (some JSNum.nan) = false
  ∧ showsDistanceBadge none = false := by
  refine ⟨?_, rfl, rfl, rfl⟩
  intro d
  rcases d with _ | n
  · simp [showsDistanceBadge]
  · rcases n with q | _
    · simp [showsDistanceBadge, JSNum.truthy]
    · simp [showsDistanceBadge, JSNum.truthy]

/-- Claim C9: the visible list is exactly the first page * PAGE_SIZE entries of the
filtered result, the remaining count is the filtered count minus the visible count,
and with page size 30 over 75 results pages 1, 2, 3 show 30, 60, 75 places with
remaining counts 45, 15, 0. -/
theorem pagination_window :
    (∀ (l : List APlace) (page : ℕ), visiblePlaces l page = l.take (page * PAGE_SIZE))
  ∧ (∀ (l : List APlace) (page : ℕ),
      (visiblePlaces l page).length = min (page * PAGE_SIZE) l.length)
  ∧ (∀ (l : List APlace) (page : ℕ),
      remainingCount l page = l.length - (visiblePlaces l page).length)
  ∧ (visiblePlaces demo75 1).length = 30
  ∧ (visiblePlaces demo75 2).length = 60
  ∧ (visiblePlaces demo75 3).length = 75
  ∧ remainingCount demo75 1 = 45
  ∧ remainingCount demo75 2 = 15
  ∧ remainingCount demo75 3 = 0 := by
  refine ⟨fun l page => rfl, fun l page => ?_, fun l page => rfl, ?_, ?_, ?_, ?_, ?_, ?_⟩
  · simp [visiblePlaces, List.length_take]
  all_goals
    simp [remainingCount, visiblePlaces, demo75, PAGE_SIZE, List.length_take]

/-- Claim C7, amended: an empty search term applies no filter; every nonempty term
(whitespace-only ones included) keeps exactly the places whose lowercased name
contains the lowercased term or one of whose lowercased metadata tags does; and on
the spec's example the term "temple" keeps the name match and the tag match and
drops the rest. -/
theorem search_filter_characterization :
    (∀ l : List APlace, searchFilterStep "" l = l)
  ∧ (∀ (term : String) (l : List APlace), term ≠ "" →
      searchFilterStep term l = l.filter (searchMatches term))
  ∧ (∀ (term : String) (p : APlace), searchMatches term p = true ↔
      (containsSub (lowerChars p.name) (lowerChars term) = true
        ∨ ∃ t ∈ p.metadata.tags.getD [], containsSub (lowerChars t) (lowerChars term) = true))
  ∧ searchFilterStep "temple" [templeCafe, taggedX, unrelatedPlace] = [templeCafe, taggedX] := by
  refine ⟨fun l => by simp [searchFilterStep], fun term l h => by simp [searchFilterStep, h],
    ?_, by decide⟩
  intro term p
  simp [searchMatches, includesCI, List.any_eq_true]

/-- Claim C7, counterexample: a whitespace-only search term is truthy, so the filter
runs and drops a place whose name and tags contain no space, where the claim says a
whitespace-only term applies no filter at all. -/
theorem whitespace_search_term_filters :
    searchFilterStep " " [whitespacePlace] = []
  ∧ searchFilterStep " " [whitespacePlace] ≠ [whitespacePlace] := by
  decide

/-- Witness for claim C7: the nonempty-term branch applied at the term "temple". -/
theorem search_filter_characterization_witness :
    searchFilterStep "temple" [templeCafe, taggedX, unrelatedPlace]
      = [templeCafe, taggedX, unrelatedPlace].filter (searchMatches "temple") :=
  search_filter_characterization.2.1 "temple" [templeCafe, taggedX, unrelatedPlace]
    (by decide)

theorem firstSeenSpec_subset : ∀ (l : List String) (a : String), a ∈ firstSeenSpec l → a ∈ l
  | [], a, h => by simp [firstSeenSpec] at h
  | t :: rest, a, h => by
    rw [firstSeenSpec] at h
    rcases List.mem_cons.mp h with h | h
    · simp [h]
    · exact List.mem_cons_of_mem t (List.mem_of_mem_filter (firstSeenSpec_subset _ a h))
termination_by l => l.length
decreasing_by
  simp
  exact Nat.lt_succ_of_le (List.length_filter_le _ _)

theorem firstSeenSpec_nodup : ∀ l : List String, (firstSeenSpec l).Nodup
  | [] => by simp [firstSeenSpec]
  | t :: rest => by
    rw [firstSeenSpec]
    refine List.nodup_cons.mpr ⟨fun h => ?_, firstSeenSpec_nodup _⟩
    have := firstSeenSpec_subset _ t h
    simp [List.mem_filter] at this
termination_by l => l.length
decreasing_by
  all_goals
    simp
    exact Nat.lt_succ_of_le (List.length_filter_le _ _)

theorem foldl_addTag_eq : ∀ (l acc : List String),
    l.foldl addTag acc = acc ++ firstSeenSpec (l.filter (fun u => decide (u ∉ acc)))
  | [], acc => by simp [firstSeenSpec]
  | t :: rest, acc => by
    rw [List.foldl_cons]
    by_cases ht : t ∈ acc
    · rw [show addTag acc t = acc from by simp [addTag, ht],
        foldl_addTag_eq rest acc, List.filter_cons_of_neg (by simp [ht])]
    · have hfilter : rest.filter (fun u => decide (u ∉ acc ++ [t]))
          = (rest.filter (fun u => decide (u ∉ acc))).filter (fun u => u != t) := by
        rw [List.filter_filter]
        apply List.filter_congr
        intro x _
        by_cases hx : x = t
        · simp [hx]
        · simp [hx, List.mem_append]
      rw [show addTag acc t = acc ++ [t] from by simp [addTag, ht],
        foldl_addTag_eq rest (acc ++ [t]), List.filter_cons_of_pos (by simp [ht]),
        firstSeenSpec, hfilter, List.append_assoc, List.cons_append, List.nil_append]

theorem foldl_tags_flatMap (f : Place → List String) :
    ∀ (ps : List Place) (acc : List String),
      ps.foldl (fun acc p => (f p).foldl addTag acc) acc = (ps.flatMap f).foldl addTag acc
  | [], acc => by simp
  | p :: rest, acc => by
    rw [List.foldl_cons, foldl_tags_flatMap f rest, List.flatMap_cons, List.foldl_append]

theorem availableTags_eq_spec (places : List Place) (cat : String) :
    availableTags places cat = specTagVocab places cat := by
  unfold availableTags specTagVocab
  dsimp only
  rw [foldl_tags_flatMap, foldl_addTag_eq]
  simp

/-- Claim C8: tag vocabulary extraction equals the spec's deduplicated
order-of-first-appearance list truncated to 15; it is duplicate-free, at most 15
long, draws only from places of the active category, ignores the search term and
active tag, and on a category with 18 distinct tags returns exactly the first 15. -/
theorem availableTags_first_fifteen :
    (∀ places cat, availableTags places cat = specTagVocab places cat)
  ∧ (∀ places cat, (availableTags places cat).Nodup)
  ∧ (∀ places cat, (availableTags places cat).length ≤ 15)
  ∧ (∀ places cat, ∀ t ∈ availableTags places cat,
      ∃ p ∈ places, p.category = cat ∧ t ∈ p.metadata.tags.getD [])
  ∧ (∀ (places : List Place) (c t1 g1 t2 g2 : String) (n1 n2 : ℕ),
      availableTagsUI places ⟨c, t1, g1, n1⟩ = availableTagsUI places ⟨c, t2, g2, n2⟩)
  ∧ availableTags demoPlaces "food"
      = ["a", "b", "c", "d", "e", "f", "g", "h", "i", "j", "k", "l", "m", "n", "o"] := by
  refine ⟨availableTags_eq_spec, ?_, ?_, ?_, fun places c t1 g1 t2 g2 n1 n2 => rfl, by decide⟩
  · intro places cat
    rw [availableTags_eq_spec]
    exact (firstSeenSpec_nodup _).sublist (List.take_sublist _ _)
  · intro places cat
    rw [availableTags_eq_spec]
    exact List.length_take_le _ _
  · intro places cat t ht
    rw [availableTags_eq_spec] at ht
    have := firstSeenSpec_subset _ t (List.mem_of_mem_take ht)
    rcases List.mem_flatMap.mp this with ⟨p, hp, htag⟩
    rcases List.mem_filter.mp hp with ⟨hpmem, hpcat⟩
    exact ⟨p, hpmem, by simpa using hpcat, htag⟩

theorem takeWhile_middle {α : Type} (p : α → Bool) (l1 : List α) (a : α) (l2 : List α)
    (h1 : ∀ c ∈ l1, p c = true) (ha : p a = false) :
    (l1 ++ a :: l2).takeWhile p = l1 := by
  induction l1 with
  | nil => simp [List.takeWhile_cons, ha]
  | cons x xs ih =>
    rw [List.cons_append, List.takeWhile_cons, if_pos (h1 x (by simp)),
      ih (fun c hc => h1 c (by simp [hc]))]

theorem dropWhile_middle {α : Type} (p : α → Bool) (l1 : List α) (a : α) (l2 : List α)
    (h1 : ∀ c ∈ l1, p c = true) (ha : p a = false) :
    (l1 ++ a :: l2).dropWhile p = a :: l2 := by
  induction l1 with
  | nil => simp [List.dropWhile_cons, ha]
  | cons x xs ih =>
    rw [List.cons_append, List.dropWhile_cons, if_pos (h1 x (by simp)),
      ih (fun c hc => h1 c (by simp [hc]))]

theorem takeWhile_all {α : Type} (p : α → Bool) (l : List α) (h : ∀ c ∈ l, p c = true) :
    l.takeWhile p = l := by
  induction l with
  | nil => rfl
  | cons x xs ih =>
    rw [List.takeWhile_cons, if_pos (h x (by simp)), ih (fun c hc => h c (by simp [hc]))]

theorem lastIdxOf_append_last (t : List Char) :
    lastIdxOf ')' (t ++ [')']) = some t.length := by
  induction t with
  | nil => simp [lastIdxOf]
  | cons c cs ih => rw [List.cons_append, lastIdxOf, ih]; simp

theorem tryMatchAt_tokens (t1 t2 : List Char) (h1ne : t1 ≠ []) (h2ne : t2 ≠ [])
    (h1 : ∀ c ∈ t1, c ≠ ' ') (h2 : ∀ c ∈ t2, c ≠ ' ') :
    tryMatchAt (t1 ++ ' ' :: (t2 ++ [')'])) = some (t1, t2) := by
  unfold tryMatchAt
  dsimp only
  rw [takeWhile_middle (fun c => c != ' ') t1 ' ' (t2 ++ [')'])
      (fun c hc => by simpa using h1 c hc) (by simp),
    dropWhile_middle (fun c => c != ' ') t1 ' ' (t2 ++ [')'])
      (fun c hc => by simpa using h1 c hc) (by simp)]
  rw [if_neg (by simpa using h1ne)]
  have hrun2 : (t2 ++ [')']).takeWhile (fun c => c != ' ') = t2 ++ [')'] := by
    apply takeWhile_all
    intro c hc
    rcases List.mem_append.mp hc with h | h
    · simpa using h2 c h
    · simp at h; simp [h]
  split
  next rest2 heq =>
    have hr : rest2 = t2 ++ [')'] := by injection heq with h h; exact h.symm
    subst hr
    rw [hrun2, lastIdxOf_append_last t2]
    show (if 1 ≤ t2.length then some (t1, (t2 ++ [')']).take t2.length) else none)
      = some (t1, t2)
    rw [if_pos (Nat.one_le_iff_ne_zero.mpr (fun h0 => h2ne (List.length_eq_zero.mp h0))),
      List.take_left]
  next hno =>
    exact absurd rfl (hno (t2 ++ [')']))

theorem toList_append (s t : String) : (s ++ t).toList = s.toList ++ t.toList := by
  simp [String.toList, String.data_append]

theorem findPointMatch_point (t1 t2 : List Char) (h1ne : t1 ≠ []) (h2ne : t2 ≠ [])
    (h1 : ∀ c ∈ t1, c ≠ ' ') (h2 : ∀ c ∈ t2, c ≠ ' ') :
    findPointMatch
        ('P' :: 'O' :: 'I' :: 'N' :: 'T' :: '(' :: (t1 ++ ' ' :: (t2 ++ [')'])))
      = some (t1, t2) := by
  have ht := tryMatchAt_tokens t1 t2 h1ne h2ne h1 h2
  simp [findPointMatch, ht]

theorem parseLocation_point_general (t1 t2 : String) (h1ne : t1.toList ≠ [])
    (h2ne : t2.toList ≠ []) (h1 : ∀ c ∈ t1.toList, c ≠ ' ') (h2 : ∀ c ∈ t2.toList, c ≠ ' ') :
    parseLocation (LocValue.str ("POINT(" ++ t1 ++ " " ++ t2 ++ ")"))
      = some ⟨parseFloat t2, parseFloat t1⟩ := by
  have hlist : ("POINT(" ++ t1 ++ " " ++ t2 ++ ")").toList
      = 'P' :: 'O' :: 'I' :: 'N' :: 'T' :: '(' :: (t1.toList ++ ' ' :: (t2.toList ++ [')'])) := by
    rw [toList_append, toList_append, toList_append, toList_append]
    show ['P', 'O', 'I', 'N', 'T', '('] ++ t1.toList ++ [' '] ++ t2.toList ++ [')'] = _
    simp
  simp only [parseLocation]
  rw [hlist]
  rw [if_neg (by simp)]
  rw [if_pos (by simp [startsWithL, pointLit])]
  rw [findPointMatch_point t1.toList t2.toList h1ne h2ne h1 h2]
  rfl

theorem parseLocation_str (s : String) :
    parseLocation (LocValue.str s)
      = if s.toList.isEmpty = true then none
        else if startsWithL s.toList pointLit = true then
          (match findPointMatch s.toList with
            | some (u1, u2) => some ⟨parseFloatChars u2, parseFloatChars u1⟩
            | none => (none : Option Coord))
        else none := rfl

theorem parseFloatChars_lat : parseFloatChars ['2', '2', '.', '5', '6'] = JSNum.num (2256 / 100) := by
  show parseFloatSigned 1 ['2', '2', '.', '5', '6'] = JSNum.num (2256 / 100)
  unfold parseFloatSigned
  rw [show List.takeWhile Char.isDigit ['2', '2', '.', '5', '6'] = ['2', '2'] from by decide,
    show List.dropWhile Char.isDigit ['2', '2', '.', '5', '6'] = ['.', '5', '6'] from by decide]
  show (if (['2', '2'].isEmpty && (List.takeWhile Char.isDigit ['5', '6']).isEmpty) = true
      then JSNum.nan
      else JSNum.num (1 * ((digitsToNat ['2', '2'] : ℚ)
        + (digitsToNat (List.takeWhile Char.isDigit ['5', '6']) : ℚ)
          / (10 : ℚ) ^ (List.takeWhile Char.isDigit ['5', '6']).length)))
    = JSNum.num (2256 / 100)
  rw [show List.takeWhile Char.isDigit ['5', '6'] = ['5', '6'] from by decide,
    if_neg (by decide),
    show digitsToNat ['2', '2'] = 22 from by decide,
    show digitsToNat ['5', '6'] = 56 from by decide]
  norm_num

theorem parseFloatChars_lng :
    parseFloatChars ['1', '2', '0', '.', '3', '3', '4'] = JSNum.num (120334 / 1000) := by
  show parseFloatSigned 1 ['1', '2', '0', '.', '3', '3', '4'] = JSNum.num (120334 / 1000)
  unfold parseFloatSigned
  rw [show List.takeWhile Char.isDigit ['1', '2', '0', '.', '3', '3', '4'] = ['1', '2', '0']
      from by decide,
    show List.dropWhile Char.isDigit ['1', '2', '0', '.', '3', '3', '4'] = ['.', '3', '3', '4']
      from by decide]
  show (if (['1', '2', '0'].isEmpty && (List.takeWhile Char.isDigit ['3', '3', '4']).isEmpty) = true
      then JSNum.nan
      else JSNum.num (1 * ((digitsToNat ['1', '2', '0'] : ℚ)
        + (digitsToNat (List.takeWhile Char.isDigit ['3', '3', '4']) : ℚ)
          / (10 : ℚ) ^ (List.takeWhile Char.isDigit ['3', '3', '4']).length)))
    = JSNum.num (120334 / 1000)
  rw [show List.takeWhile Char.isDigit ['3', '3', '4'] = ['3', '3', '4'] from by decide,
    if_neg (by decide),
    show digitsToNat ['1', '2', '0'] = 120 from by decide,
    show digitsToNat ['3', '3', '4'] = 334 from by decide]
  norm_num

/-- Claim C5: the parser maps "POINT(120.334 22.56)" to lng 120.334 and lat 22.56,
and in general on POINT(<t1> <t2>) text the first token becomes the lng field and the
second the lat field, both via parseFloat. -/
theorem parseLocation_point_roundtrip :
    parseLocation (LocValue.str "POINT(120.334 22.56)")
      = some ⟨JSNum.num (2256 / 100), JSNum.num (120334 / 1000)⟩
  ∧ (∀ t1 t2 : String, t1.toList ≠ [] → t2.toList ≠ [] →
      (∀ c ∈ t1.toList, c ≠ ' ') → (∀ c ∈ t2.toList, c ≠ ' ') →
      parseLocation (LocValue.str ("POINT(" ++ t1 ++ " " ++ t2 ++ ")"))
        = some ⟨parseFloat t2, parseFloat t1⟩) := by
  constructor
  · rw [parseLocation_str, if_neg (by decide), if_pos (by decide),
      show findPointMatch "POINT(120.334 22.56)".toList
        = some (['1', '2', '0', '.', '3', '3', '4'], ['2', '2', '.', '5', '6']) from by decide]
    show some (⟨parseFloatChars ['2', '2', '.', '5', '6'],
        parseFloatChars ['1', '2', '0', '.', '3', '3', '4']⟩ : Coord)
      = some ⟨JSNum.num (2256 / 100), JSNum.num (120334 / 1000)⟩
    rw [parseFloatChars_lat, parseFloatChars_lng]
  · exact parseLocation_point_general

/-- Witness for claim C5: the general round-trip applied at the concrete tokens. -/
theorem parseLocation_point_roundtrip_witness :
    parseLocation (LocValue.str ("POINT(" ++ "120.334" ++ " " ++ "22.56" ++ ")"))
      = some ⟨parseFloat "22.56", parseFloat "120.334"⟩ :=
  parseLocation_point_roundtrip.2 "120.334" "22.56" (by decide) (by decide) (by decide)
    (by decide)

/-- Claim C4, counterexample: the malformed text "POINT(x y)", whose two tokens are
not numerals, still matches the regex, so the parser yields a NaN coordinate pair
rather than the claimed null. -/
theorem parseLocation_nan_not_null :
    parseLocation (LocValue.str "POINT(x y)") ≠ none
  ∧ parseLocation (LocValue.str "POINT(x y)") = some ⟨JSNum.nan, JSNum.nan⟩ := by
  decide

/-- Claim C4, amended: an absent value, a structured coordinate object, a string not
starting with POINT, and a POINT string the regex rejects all yield null; but a POINT
string matching the "(token token)" shape yields a coordinate pair even when its
tokens are not numerals (the components are then NaN), and whenever the parser yields
a pair the distance is defined (NaN-valued rather than undefined for such inputs);
the distance is undefined exactly when the parser yields null. -/
theorem parseLocation_failure_modes :
    parseLocation LocValue.absent = none
  ∧ (∀ la ln : JSNum, parseLocation (LocValue.obj la ln) = none)
  ∧ (∀ s : String, startsWithL s.toList pointLit = false → parseLocation (LocValue.str s) = none)
  ∧ (∀ s : String, findPointMatch s.toList = none → parseLocation (LocValue.str s) = none)
  ∧ parseLocation (LocValue.str "POINT(x y)") = some ⟨JSNum.nan, JSNum.nan⟩
  ∧ (∀ (distFn : Coord → Coord → JSNum) (u : Coord) (p : Place) (c : Coord),
      parseLocation p.location = some c →
        (annotatePlace distFn (some u) p).distance = some (distFn u c))
  ∧ (∀ (distFn : Coord → Coord → JSNum) (u : Coord) (p : Place),
      parseLocation p.location = none → (annotatePlace distFn (some u) p).distance = none) := by
  refine ⟨rfl, fun la ln => rfl, ?_, ?_, by decide, ?_, ?_⟩
  · intro s h
    rw [parseLocation_str]
    by_cases he : s.toList.isEmpty = true
    · rw [if_pos he]
    · rw [if_neg he, if_neg (fun hc => by rw [hc] at h; simp at h)]
  · intro s h
    rw [parseLocation_str]
    by_cases he : s.toList.isEmpty = true
    · rw [if_pos he]
    · by_cases hs : startsWithL s.toList pointLit = true
      · rw [if_neg he, if_pos hs, h]
      · rw [if_neg he, if_neg hs]
  · intro distFn u p c h
    simp [annotatePlace, h]
  · intro distFn u p h
    simp [annotatePlace, h]

/-- Witness for claim C4: the failure branches evaluated at concrete strings. -/
theorem parseLocation_failure_modes_witness :
    parseLocation (LocValue.str "FOO") = none
  ∧ parseLocation (LocValue.str "POINTER") = none :=
  ⟨parseLocation_failure_modes.2.2.1 "FOO" (by decide),
   parseLocation_failure_modes.2.2.2.1 "POINTER" (by decide)⟩

theorem atan2_nonneg (y x : ℝ) (hy : 0 ≤ y) : 0 ≤ atan2 y x := by
  unfold atan2
  exact Complex.arg_nonneg_iff.mpr hy

theorem havA_symm (lat1 lon1 lat2 lon2 : ℝ) :
    havA lat2 lon2 lat1 lon1 = havA lat1 lon1 lat2 lon2 := by
  unfold havA
  have e1 : deg2rad (lat1 - lat2) / 2 = -(deg2rad (lat2 - lat1) / 2) := by
    unfold deg2rad; ring
  have e2 : deg2rad (lon1 - lon2) / 2 = -(deg2rad (lon2 - lon1) / 2) := by
    unfold deg2rad; ring
  rw [e1, e2]
  simp only [Real.sin_neg]
  ring

/-- Claim C6: the haversine distance (Earth radius 6371 km) is non-negative for all
real inputs, exactly zero from a point to itself (hence within the claimed 1e-6
tolerance), and symmetric under swapping the two coordinates. -/
theorem haversine_nonneg_zero_symm :
    (∀ lat1 lon1 lat2 lon2 : ℝ, 0 ≤ getDistanceFromLatLonInKm lat1 lon1 lat2 lon2)
  ∧ (∀ lat lon : ℝ, getDistanceFromLatLonInKm lat lon lat lon = 0)
  ∧ (∀ lat1 lon1 lat2 lon2 : ℝ,
      getDistanceFromLatLonInKm lat1 lon1 lat2 lon2
        = getDistanceFromLatLonInKm lat2 lon2 lat1 lon1) := by
  refine ⟨?_, ?_, ?_⟩
  · intro lat1 lon1 lat2 lon2
    unfold getDistanceFromLatLonInKm
    have h := atan2_nonneg (Real.sqrt (havA lat1 lon1 lat2 lon2))
      (Real.sqrt (1 - havA lat1 lon1 lat2 lon2)) (Real.sqrt_nonneg _)
    nlinarith
  · intro lat lon
    have ha : havA lat lon lat lon = 0 := by
      unfold havA deg2rad
      simp
    unfold getDistanceFromLatLonInKm
    rw [ha]
    have : atan2 (Real.sqrt 0) (Real.sqrt (1 - 0)) = 0 := by
      unfold atan2
      rw [Real.sqrt_zero, show (1 : ℝ) - 0 = 1 by ring, Real.sqrt_one]
      have : (⟨1, 0⟩ : ℂ) = (1 : ℂ) := by
        apply Complex.ext <;> simp
      rw [this, Complex.arg_one]
    rw [this]
    ring
  · intro lat1 lon1 lat2 lon2
    unfold getDistanceFromLatLonInKm
    rw [havA_symm]
